import Mathlib

/-!
Verification of the VoiceNote speech-practice scoring core.

Shallow embedding of the scoring engine (`app/services/scoring_service.py`),
the recording validator and capture service (`app/services/audio_service.py`),
and the post-recording orchestration step (`app/ui/recording_screen.py`).

Python floats are modelled as rationals (all quantities involved are small
and the comparisons at stake are far from representation boundaries);
Python `int()` is truncation toward zero and Python `round` is
round-half-to-even, both modelled explicitly below.
-/

namespace VoiceNote

/-! ## Python numeric primitives -/

/-- Python `int(x)` on a float truncates toward zero. -/
def pyTrunc (q : ℚ) : ℤ :=
  if q < 0 then ⌈q⌉ else ⌊q⌋

/-- Python `round` ties-to-even rounding on the scaled value. -/
def roundHalfEven (q : ℚ) : ℤ :=
  if q - ⌊q⌋ < 1/2 then ⌊q⌋
  else if 1/2 < q - ⌊q⌋ then ⌊q⌋ + 1
  else if ⌊q⌋ % 2 = 0 then ⌊q⌋ else ⌊q⌋ + 1

/-- Python `round(x, 4)`: round to four decimal places. -/
def round4 (q : ℚ) : ℚ :=
  (roundHalfEven (q * 10000) : ℚ) / 10000

/-! ## Configuration constants (`app/utils/config.py`) -/

def SCORE_EXCELLENT_MIN : ℤ := 70
def SCORE_GOOD_MIN : ℤ := 50
def AUDIO_SAMPLE_RATE : ℕ := 16000
def MIN_RECORDING_DURATION : ℚ := 1
def MAX_AUDIO_FILE_SIZE : ℕ := 10 * 1024 * 1024

/-! ## Text normalizer (`scoring_service.normalize_text`) -/

/-- Membership in Python `string.punctuation`
(ASCII 33-47, 58-64, 91-96, 123-126). -/
def isPunct (c : Char) : Bool :=
  let n := c.toNat
  (33 ≤ n && n ≤ 47) || (58 ≤ n && n ≤ 64) || (91 ≤ n && n ≤ 96) || (123 ≤ n && n ≤ 126)

/-- ASCII whitespace recognised by Python `str.split()`:
space, tab, LF, VT, FF, CR. -/
def isSpaceChar (c : Char) : Bool :=
  c.toNat = 32 || (9 ≤ c.toNat && c.toNat ≤ 13)

/-- Python `str.split()` with no separator: split on runs of whitespace,
dropping empty pieces. `acc` is the current word accumulated in reverse. -/
def splitWsAux : List Char → List Char → List (List Char)
  | [], acc => if acc = [] then [] else [acc.reverse]
  | c :: cs, acc =>
      if isSpaceChar c then
        if acc = [] then splitWsAux cs [] else acc.reverse :: splitWsAux cs []
      else splitWsAux cs (c :: acc)

def pySplit (s : String) : List String :=
  (splitWsAux s.toList []).map fun w => String.mk w

/-- `normalize_text`: lowercase, strip punctuation, collapse whitespace.
The `if not text` early return is subsumed (empty input yields `""`). -/
def normalize_text (s : String) : String :=
  String.intercalate " "
    ((splitWsAux ((s.toList.map Char.toLower).filter fun c => !(isPunct c)) []).map
      fun w => String.mk w)

/-- Token list used by `calculate_wer`: `normalize_text(x).split()`. -/
def wordsOf (s : String) : List String :=
  pySplit (normalize_text s)

/-! ## Word-level edit distance (the DP loop inside `calculate_wer`)

The Python code fills an `(n+1) x (m+1)` table row by row; we embed the
loop as the row-by-row construction it performs: row 0 is `[0, 1, ..., m]`
and row `i` is built left to right from row `i-1`. -/

/-- Inner loop over `j = 1..m`: `left` is `dp[i][j-1]`, `diag` is
`dp[i-1][j-1]`, and the head of `ups` is `dp[i-1][j]`. -/
def rowAux (x : String) : ℕ → ℕ → List String → List ℕ → List ℕ
  | _, _, [], _ => []
  | _, _, _ :: _, [] => []
  | left, diag, y :: ys, up :: ups =>
      let v := if x = y then diag else 1 + min up (min left diag)
      v :: rowAux x v up ys ups

/-- Row `i` (first entry `dp[i][0] = i`) built from row `i-1` (`prev`). -/
def nextRow (x : String) (hyp : List String) (i : ℕ) (prev : List ℕ) : List ℕ :=
  i :: rowAux x i (prev.headD 0) hyp prev.tail

/-- Outer loop over the reference words: `i` rows already built,
`row` is row `i`, and the remaining reference suffix drives the fold. -/
def dpFold (hyp : List String) : List String → ℕ → List ℕ → List ℕ
  | [], _, row => row
  | x :: xs, i, row => dpFold hyp xs (i + 1) (nextRow x hyp (i + 1) row)

/-- `edit_distance = dp[n][m]`: last entry of the last row. -/
def edit_distance (ref hyp : List String) : ℕ :=
  (dpFold hyp ref 0 (List.range (hyp.length + 1))).getLastD 0

/-- `calculate_wer(reference, hypothesis)` from `scoring_service.py`. -/
def calculate_wer (reference hypothesis : String) : ℚ :=
  let ref_words := wordsOf reference
  let hyp_words := wordsOf hypothesis
  if ref_words = [] then (if hyp_words = [] then 0 else 1)
  else round4 ((edit_distance ref_words hyp_words : ℚ) / (ref_words.length : ℚ))

/-- Modelled from the spec: the dynamic-programming recurrence of section 4.2,
`dp[i][0] = i`, `dp[0][j] = j`, `dp[i][j] = dp[i-1][j-1]` on equal tokens and
otherwise `1 + min (dp[i-1][j]) (dp[i][j-1]) (dp[i-1][j-1])`. -/
def dpSpec (ref hyp : List String) : ℕ → ℕ → ℕ
  | 0, j => j
  | i + 1, 0 => i + 1
  | i + 1, j + 1 =>
      if ref.getD i "" = hyp.getD j "" then dpSpec ref hyp i j
      else 1 + min (dpSpec ref hyp i (j + 1)) (min (dpSpec ref hyp (i + 1) j) (dpSpec ref hyp i j))
termination_by i j => (i, j)

/-- The list `[f j, f (j+1), ..., f (j+k-1)]`: row fragments of the DP
table described by a value function, used to state the loop invariant
relating the row construction in the code to `dpSpec`. -/
def rowFrom (f : ℕ → ℕ) : ℕ → ℕ → List ℕ
  | _, 0 => []
  | j, k + 1 => f j :: rowFrom f (j + 1) k

/-! ## Accuracy classifier (`scoring_service.calculate_score`) -/

structure ScoreResult where
  wer : ℚ
  accuracy_percentage : ℤ
  category : String
  led_color : String
deriving Repr, DecidableEq

/-- `calculate_score(wer)`: note `int(...)` truncation, not rounding. -/
def calculate_score (wer : ℚ) : ScoreResult :=
  let accuracy : ℤ := max 0 (min 100 (pyTrunc ((1 - wer) * 100)))
  if SCORE_EXCELLENT_MIN ≤ accuracy then ⟨wer, accuracy, "excellent", "green"⟩
  else if SCORE_GOOD_MIN ≤ accuracy then ⟨wer, accuracy, "good", "orange"⟩
  else ⟨wer, accuracy, "needs_improvement", "red"⟩

/-- Modelled from the spec: `accuracy = clamp(round((1 - wer) * 100), 0, 100)`
(spec sections 3 and 4.3), with Python-style rounding. -/
def specAccuracy (wer : ℚ) : ℤ :=
  max 0 (min 100 (roundHalfEven ((1 - wer) * 100)))

/-! ## Scoring pipeline (`scoring_service.score_recording`) -/

structure RecordingScore where
  transcription : String
  target : String
  wer : ℚ
  accuracy : ℤ
  category : String
  led_color : String
deriving Repr, DecidableEq

/-- `score_recording(transcription, target_sentence)`; the `logger.info`
call has no effect on the returned record. -/
def score_recording (transcription target_sentence : String) : RecordingScore :=
  let wer := calculate_wer target_sentence transcription
  let score := calculate_score wer
  ⟨transcription, target_sentence, score.wer, score.accuracy_percentage,
    score.category, score.led_color⟩

/-! ## Recording validator (`audio_service.validate_recording`) -/

inductive IssueKind where
  | file_not_found
  | too_short
  | wrong_sample_rate
  | not_mono
  | too_quiet
  | clipping
  | too_large
  | corrupted
deriving Repr, DecidableEq

structure Verdict where
  valid : Bool
  issues : List IssueKind
deriving Repr, DecidableEq

/-- WAV format header fields read via the `wave` module. The channel
count is part of the header but `validate_recording` never reads it. -/
structure WavHeader where
  nframes : ℕ
  framerate : ℕ
  nchannels : ℕ
deriving Repr, DecidableEq

/-- Input states of `validate_recording`, keyed to where the Python code
can raise inside its `try` block: the path may not exist, `wave.open` may
fail, or the raw sample read may fail after the header was parsed.
`samples` are the decoded int16 sample values; `fileSize` is in bytes. -/
inductive Artifact where
  | missing
  | headerUnreadable
  | samplesUnreadable (hdr : WavHeader)
  | readable (hdr : WavHeader) (samples : List ℤ) (fileSize : ℕ)
deriving Repr, DecidableEq

/-- `frames / float(rate) if rate > 0 else 0`. -/
def wavDuration (hdr : WavHeader) : ℚ :=
  if 0 < hdr.framerate then (hdr.nframes : ℚ) / (hdr.framerate : ℚ) else 0

/-- Issues appended while the `wave.open` block runs: duration and
sample-rate checks. -/
def structuralIssues (hdr : WavHeader) : List IssueKind :=
  (if wavDuration hdr < MIN_RECORDING_DURATION then [IssueKind.too_short] else [])
    ++ (if hdr.framerate ≠ AUDIO_SAMPLE_RATE then [IssueKind.wrong_sample_rate] else [])

/-- Mean of squared normalized samples. The code compares
`sqrt(mean(x^2)) < 0.01`; squaring both sides (both non-negative) gives the
equivalent rational comparison used in `levelIssues`. -/
def rmsSqMean (samples : List ℤ) : ℚ :=
  ((samples.map fun c => ((c : ℚ) / 32768) ^ 2).sum) / (samples.length : ℚ)

/-- Peak absolute normalized amplitude, `np.max(np.abs(...))`. -/
def peakAmp (samples : List ℤ) : ℚ :=
  (samples.map fun c => |(c : ℚ) / 32768|).foldr max 0

/-- Amplitude checks, only run when sample data is non-empty. -/
def levelIssues (samples : List ℤ) : List IssueKind :=
  if samples.length > 0 then
    (if rmsSqMean samples < 1/10000 then [IssueKind.too_quiet] else [])
      ++ (if 95/100 < peakAmp samples then [IssueKind.clipping] else [])
  else []

/-- File-size check, reached only after the sample read succeeded. -/
def sizeIssues (fileSize : ℕ) : List IssueKind :=
  if fileSize > MAX_AUDIO_FILE_SIZE then [IssueKind.too_large] else []

/-- Final assembly: `valid = (len(issues) == 0)`. -/
def mkVerdict (issues : List IssueKind) : Verdict :=
  ⟨issues.isEmpty, issues⟩

/-- `validate_recording(audio_path)`. Every failure mode of the Python
code is a branch here; an exception anywhere inside the `try` appends
`corrupted` and keeps the structural issues already collected. -/
def validate_recording (a : Artifact) : Verdict :=
  match a with
  | Artifact.missing => ⟨false, [IssueKind.file_not_found]⟩
  | Artifact.headerUnreadable => mkVerdict [IssueKind.corrupted]
  | Artifact.samplesUnreadable hdr =>
      mkVerdict (structuralIssues hdr ++ [IssueKind.corrupted])
  | Artifact.readable hdr samples fileSize =>
      mkVerdict (structuralIssues hdr ++ levelIssues samples ++ sizeIssues fileSize)

/-- States on which the `try` block of the validator hits a decode/parse error. -/
def decodeFails : Artifact → Bool
  | Artifact.headerUnreadable => true
  | Artifact.samplesUnreadable _ => true
  | _ => false

/-! ## Capture service state (`audio_service.AudioService`) -/

/-- The mutable fields of `AudioService` touched by `start_recording`. -/
structure AudioServiceState where
  is_recording : Bool
  audio_data : List (List ℤ)
  stop_event : Bool
  current_level : ℚ
deriving Repr, DecidableEq

/-- Synchronous effect of `start_recording`: when already recording it
logs and returns (no state change, no session); otherwise it clears the
stop event and buffer and raises the recording flag. The returned flag
records whether a new session was started. -/
def start_recording (s : AudioServiceState) : AudioServiceState × Bool :=
  if s.is_recording then (s, false)
  else ({ s with stop_event := false, audio_data := [], is_recording := true }, true)

/-! ## Post-recording orchestration (`recording_screen._process_recording`) -/

inductive UserChoice where
  | retry
  | ignore
deriving Repr, DecidableEq

inductive ProcessOutcome where
  | abortError
  | rerecord
  | transcribe
deriving Repr, DecidableEq

/-- Decision structure of `_process_recording`: failed capture aborts;
on an invalid verdict, `too_quiet` prompts the user (Retry re-records,
Ignore falls through), otherwise `too_short` re-records; every other
issue combination falls through to the transcription worker. -/
def process_recording (success : Bool) (v : Verdict) (choice : UserChoice) : ProcessOutcome :=
  if success = false then ProcessOutcome.abortError
  else if v.valid = false then
    if IssueKind.too_quiet ∈ v.issues then
      match choice with
      | UserChoice.retry => ProcessOutcome.rerecord
      | UserChoice.ignore => ProcessOutcome.transcribe
    else if IssueKind.too_short ∈ v.issues then ProcessOutcome.rerecord
    else ProcessOutcome.transcribe
  else ProcessOutcome.transcribe

/-! ## Arithmetic lemmas about the Python numeric primitives -/

lemma pyTrunc_mono {x y : ℚ} (h : x ≤ y) : pyTrunc x ≤ pyTrunc y := by
  unfold pyTrunc
  split_ifs with hx hy1 hy2
  · exact Int.ceil_mono h
  · have h1 : (⌈x⌉ : ℤ) ≤ 0 := Int.ceil_le.mpr (by exact_mod_cast hx.le)
    have h2 : (0 : ℤ) ≤ ⌊y⌋ := Int.floor_nonneg.mpr (not_lt.mp hy1)
    omega
  · exact absurd (lt_of_le_of_lt h hy2) hx
  · exact Int.floor_mono h

lemma roundHalfEven_ge_floor (q : ℚ) : ⌊q⌋ ≤ roundHalfEven q := by
  unfold roundHalfEven
  split_ifs <;> omega

lemma roundHalfEven_le_floor_add_one (q : ℚ) : roundHalfEven q ≤ ⌊q⌋ + 1 := by
  unfold roundHalfEven
  split_ifs <;> omega

lemma roundHalfEven_mono {x y : ℚ} (h : x ≤ y) : roundHalfEven x ≤ roundHalfEven y := by
  have hf : ⌊x⌋ ≤ ⌊y⌋ := Int.floor_mono h
  rcases eq_or_lt_of_le hf with heq | hlt
  · have hfr : x - (⌊x⌋ : ℚ) ≤ y - (⌊x⌋ : ℚ) := sub_le_sub_right h _
    unfold roundHalfEven
    rw [← heq]
    split_ifs <;> first | omega | linarith
  · have h1 := roundHalfEven_le_floor_add_one x
    have h2 := roundHalfEven_ge_floor y
    omega

lemma roundHalfEven_intCast (n : ℤ) : roundHalfEven (n : ℚ) = n := by
  unfold roundHalfEven
  rw [Int.floor_intCast]
  norm_num

lemma round4_mono {x y : ℚ} (h : x ≤ y) : round4 x ≤ round4 y := by
  unfold round4
  have h1 : roundHalfEven (x * 10000) ≤ roundHalfEven (y * 10000) :=
    roundHalfEven_mono (by linarith)
  have h2 : ((roundHalfEven (x * 10000) : ℤ) : ℚ) ≤ ((roundHalfEven (y * 10000) : ℤ) : ℚ) := by
    exact_mod_cast h1
  gcongr

lemma round4_one : round4 1 = 1 := by
  have h : roundHalfEven ((1 : ℚ) * 10000) = 10000 := by
    rw [show ((1 : ℚ) * 10000) = ((10000 : ℤ) : ℚ) by norm_num]
    exact roundHalfEven_intCast 10000
  unfold round4
  rw [h]
  norm_num

lemma calculate_score_accuracy (w : ℚ) :
    (calculate_score w).accuracy_percentage = max 0 (min 100 (pyTrunc ((1 - w) * 100))) := by
  simp only [calculate_score]
  split_ifs <;> rfl

/-! ## The DP loop of the code computes the spec recurrence -/

lemma dpSpec_zero_left (ref hyp : List String) (j : ℕ) : dpSpec ref hyp 0 j = j := by
  simp [dpSpec]

lemma dpSpec_zero_right (ref hyp : List String) (i : ℕ) : dpSpec ref hyp i 0 = i := by
  cases i <;> simp [dpSpec]

lemma dpSpec_succ_succ (ref hyp : List String) (i j : ℕ) :
    dpSpec ref hyp (i + 1) (j + 1) =
      if ref.getD i "" = hyp.getD j "" then dpSpec ref hyp i j
      else 1 + min (dpSpec ref hyp i (j + 1))
        (min (dpSpec ref hyp (i + 1) j) (dpSpec ref hyp i j)) := by
  simp [dpSpec]

lemma rowAux_cons (x y : String) (left diag up : ℕ) (ys : List String) (ups : List ℕ) :
    rowAux x left diag (y :: ys) (up :: ups)
      = (if x = y then diag else 1 + min up (min left diag))
          :: rowAux x (if x = y then diag else 1 + min up (min left diag)) up ys ups := rfl

lemma rowFrom_getLastD (f : ℕ → ℕ) :
    ∀ k j d, (rowFrom f j (k + 1)).getLastD d = f (j + k) := by
  intro k
  induction k with
  | zero => intro j d; simp [rowFrom]
  | succ k ih =>
      intro j d
      rw [show rowFrom f j (k + 1 + 1) = f j :: rowFrom f (j + 1) (k + 1) from rfl,
        List.getLastD_cons, ih (j + 1) (f j)]
      congr 1
      omega

lemma rowFrom_range (ref hyp : List String) :
    ∀ k j, rowFrom (dpSpec ref hyp 0) j k = List.range' j k := by
  intro k
  induction k with
  | zero => intro j; rfl
  | succ k ih =>
      intro j
      show dpSpec ref hyp 0 j :: rowFrom (dpSpec ref hyp 0) (j + 1) k = List.range' j (k + 1)
      rw [dpSpec_zero_left, ih (j + 1)]
      rfl

lemma rowAux_spec (ref hyp : List String) (i : ℕ) :
    ∀ k j, j + k = hyp.length →
      rowAux (ref.getD i "") (dpSpec ref hyp (i + 1) j) (dpSpec ref hyp i j)
          (hyp.drop j) (rowFrom (dpSpec ref hyp i) (j + 1) k)
        = rowFrom (dpSpec ref hyp (i + 1)) (j + 1) k := by
  intro k
  induction k with
  | zero =>
      intro j hj
      have hje : j = hyp.length := by omega
      subst hje
      rw [List.drop_length]
      rfl
  | succ k ih =>
      intro j hj
      have hjlt : j < hyp.length := by omega
      have hd : hyp.drop j = hyp.getD j "" :: hyp.drop (j + 1) := by
        rw [List.drop_eq_getElem_cons hjlt, List.getD_eq_getElem hyp "" hjlt]
      rw [hd,
        show rowFrom (dpSpec ref hyp i) (j + 1) (k + 1)
          = dpSpec ref hyp i (j + 1) :: rowFrom (dpSpec ref hyp i) (j + 1 + 1) k from rfl,
        rowAux_cons, ← dpSpec_succ_succ ref hyp i j, ih (j + 1) (by omega),
        show rowFrom (dpSpec ref hyp (i + 1)) (j + 1) (k + 1)
          = dpSpec ref hyp (i + 1) (j + 1) :: rowFrom (dpSpec ref hyp (i + 1)) (j + 1 + 1) k
          from rfl]

lemma nextRow_spec (ref hyp : List String) (i : ℕ) :
    nextRow (ref.getD i "") hyp (i + 1) (rowFrom (dpSpec ref hyp i) 0 (hyp.length + 1))
      = rowFrom (dpSpec ref hyp (i + 1)) 0 (hyp.length + 1) := by
  rw [show rowFrom (dpSpec ref hyp i) 0 (hyp.length + 1)
      = dpSpec ref hyp i 0 :: rowFrom (dpSpec ref hyp i) (0 + 1) hyp.length from rfl]
  unfold nextRow
  simp only [List.headD_cons, List.tail_cons]
  have h1 := rowAux_spec ref hyp i hyp.length 0 (by omega)
  rw [List.drop_zero] at h1
  simp only [dpSpec_zero_right] at h1
  rw [dpSpec_zero_right, h1,
    show rowFrom (dpSpec ref hyp (i + 1)) 0 (hyp.length + 1)
      = dpSpec ref hyp (i + 1) 0 :: rowFrom (dpSpec ref hyp (i + 1)) (0 + 1) hyp.length
      from rfl,
    dpSpec_zero_right]

lemma dpFold_spec (ref hyp : List String) :
    ∀ k i, i + k = ref.length →
      dpFold hyp (ref.drop i) i (rowFrom (dpSpec ref hyp i) 0 (hyp.length + 1))
        = rowFrom (dpSpec ref hyp ref.length) 0 (hyp.length + 1) := by
  intro k
  induction k with
  | zero =>
      intro i hi
      have hie : i = ref.length := by omega
      subst hie
      rw [List.drop_length]
      rfl
  | succ k ih =>
      intro i hi
      have hilt : i < ref.length := by omega
      have hd : ref.drop i = ref.getD i "" :: ref.drop (i + 1) := by
        rw [List.drop_eq_getElem_cons hilt, List.getD_eq_getElem ref "" hilt]
      rw [hd]
      show dpFold hyp (ref.drop (i + 1)) (i + 1)
          (nextRow (ref.getD i "") hyp (i + 1) (rowFrom (dpSpec ref hyp i) 0 (hyp.length + 1)))
        = rowFrom (dpSpec ref hyp ref.length) 0 (hyp.length + 1)
      rw [nextRow_spec]
      exact ih (i + 1) (by omega)

/-- The iteratively-built table agrees with the recurrence at `dp[n][m]`. -/
lemma edit_distance_eq_dpSpec (ref hyp : List String) :
    edit_distance ref hyp = dpSpec ref hyp ref.length hyp.length := by
  unfold edit_distance
  rw [List.range_eq_range', ← rowFrom_range ref hyp (hyp.length + 1) 0]
  have h1 := dpFold_spec ref hyp ref.length 0 (by omega)
  rw [List.drop_zero] at h1
  rw [h1, rowFrom_getLastD]
  simp

lemma dpSpec_le_max_aux (ref hyp : List String) :
    ∀ s i j, i + j ≤ s → dpSpec ref hyp i j ≤ max i j := by
  intro s
  induction s with
  | zero =>
      intro i j h
      have hi : i = 0 := by omega
      have hj : j = 0 := by omega
      subst hi; subst hj
      rw [dpSpec_zero_left]
      omega
  | succ s ih =>
      intro i j h
      cases i with
      | zero => rw [dpSpec_zero_left]; omega
      | succ i =>
          cases j with
          | zero => rw [dpSpec_zero_right]; omega
          | succ j =>
              rw [dpSpec_succ_succ]
              have h1 : dpSpec ref hyp i j ≤ max i j := ih i j (by omega)
              split_ifs
              · omega
              · have h2 : min (dpSpec ref hyp i (j + 1))
                    (min (dpSpec ref hyp (i + 1) j) (dpSpec ref hyp i j))
                      ≤ dpSpec ref hyp i j :=
                  le_trans (min_le_right _ _) (min_le_right _ _)
                omega

/-- Word-level Levenshtein distance never exceeds the longer length. -/
lemma dpSpec_le_max (ref hyp : List String) (i j : ℕ) : dpSpec ref hyp i j ≤ max i j :=
  dpSpec_le_max_aux ref hyp (i + j) i j le_rfl

/-- Unfolding of `calculate_wer` into its three cases. -/
lemma calculate_wer_eq (reference hypothesis : String) :
    calculate_wer reference hypothesis =
      if wordsOf reference = [] then (if wordsOf hypothesis = [] then (0 : ℚ) else 1)
      else round4 ((edit_distance (wordsOf reference) (wordsOf hypothesis) : ℚ)
        / ((wordsOf reference).length : ℚ)) := rfl

/-! ## Concrete evaluations shared by several claims -/

lemma wer_good_morning :
    calculate_wer "good morning everyone" "good evening everyone" = 3333 / 10000 := by
  have h1 : wordsOf "good morning everyone" = ["good", "morning", "everyone"] := by decide
  have h2 : wordsOf "good evening everyone" = ["good", "evening", "everyone"] := by decide
  have h3 : edit_distance ["good", "morning", "everyone"] ["good", "evening", "everyone"] = 1 := by
    decide
  rw [calculate_wer_eq, h1, h2, h3, if_neg (List.cons_ne_nil _ _)]
  norm_num [round4, roundHalfEven]

lemma accuracy_good_morning : (calculate_score (3333 / 10000)).accuracy_percentage = 66 := by
  rw [calculate_score_accuracy]
  norm_num [pyTrunc]

lemma rmsSqMean_single : rmsSqMean [16384] = 1 / 4 := by
  unfold rmsSqMean
  norm_num

lemma peakAmp_single : peakAmp [16384] = 1 / 2 := by
  simp [peakAmp]
  norm_num [abs_of_nonneg, max_eq_left]

lemma validate_stereo :
    validate_recording (Artifact.readable (WavHeader.mk 48000 16000 2) [16384] 1000)
      = ⟨true, []⟩ := by
  simp only [validate_recording, mkVerdict, structuralIssues, levelIssues, sizeIssues,
    wavDuration, rmsSqMean_single, peakAmp_single]
  norm_num [MIN_RECORDING_DURATION, AUDIO_SAMPLE_RATE, MAX_AUDIO_FILE_SIZE]

lemma validate_wrong_rate :
    validate_recording (Artifact.readable (WavHeader.mk 48000 8000 1) [16384] 1000)
      = ⟨false, [IssueKind.wrong_sample_rate]⟩ := by
  simp only [validate_recording, mkVerdict, structuralIssues, levelIssues, sizeIssues,
    wavDuration, rmsSqMean_single, peakAmp_single]
  norm_num [MIN_RECORDING_DURATION, AUDIO_SAMPLE_RATE, MAX_AUDIO_FILE_SIZE]

/-! ## Claims -/

/-- C1 counterexample: on the example given by the claim itself (WER 0.3333 for
"good morning everyone" vs "good evening everyone") the code returns
accuracy 66, whereas `clamp(round((1 - wer) * 100), 0, 100)` is 67: the
claimed formula does not describe `calculate_score`. -/
theorem calculate_score_example_breaks_round_claim :
    calculate_wer "good morning everyone" "good evening everyone" = 3333 / 10000 ∧
    (calculate_score (3333 / 10000)).accuracy_percentage = 66 ∧
    specAccuracy (3333 / 10000) = 67 ∧
    (calculate_score (3333 / 10000)).accuracy_percentage ≠ specAccuracy (3333 / 10000) := by
  have hspec : specAccuracy (3333 / 10000) = 67 := by
    unfold specAccuracy roundHalfEven
    norm_num
  refine ⟨wer_good_morning, accuracy_good_morning, hspec, ?_⟩
  rw [accuracy_good_morning, hspec]
  decide

/-- C1 amended: the accuracy score is `clamp(trunc((1 - wer) * 100), 0, 100)`
(Python `int()` truncation instead of rounding); for the example the WER is
0.3333, the accuracy 66, and the category Good under the default thresholds
excellent_min = 70, good_min = 50. -/
theorem calculate_score_trunc_formula :
    (∀ w : ℚ, (calculate_score w).accuracy_percentage
        = max 0 (min 100 (pyTrunc ((1 - w) * 100)))) ∧
    calculate_wer "good morning everyone" "good evening everyone" = 3333 / 10000 ∧
    (calculate_score (3333 / 10000)).accuracy_percentage = 66 ∧
    (calculate_score (3333 / 10000)).category = "good" := by
  have hcat : (calculate_score (3333 / 10000)).category = "good" := by
    simp only [calculate_score]
    norm_num [pyTrunc, SCORE_EXCELLENT_MIN, SCORE_GOOD_MIN]
  exact ⟨calculate_score_accuracy, wer_good_morning, accuracy_good_morning, hcat⟩

/-- C2 counterexample: a readable artifact whose header reports 2 channels
passes validation with an empty issue set — NotMono is never reported. -/
theorem validate_recording_stereo_counterexample :
    (WavHeader.mk 48000 16000 2).nchannels ≠ 1 ∧
    validate_recording (Artifact.readable (WavHeader.mk 48000 16000 2) [16384] 1000)
      = ⟨true, []⟩ ∧
    IssueKind.not_mono ∉
      (validate_recording
        (Artifact.readable (WavHeader.mk 48000 16000 2) [16384] 1000)).issues := by
  refine ⟨by decide, validate_stereo, ?_⟩
  rw [validate_stereo]
  decide

/-- C2 amended: `validate_recording` performs no channel-count check at all —
for every artifact the returned issue set never contains NotMono. -/
theorem validate_recording_never_not_mono (a : Artifact) :
    IssueKind.not_mono ∉ (validate_recording a).issues := by
  cases a with
  | missing => simp [validate_recording]
  | headerUnreadable => simp [validate_recording, mkVerdict]
  | samplesUnreadable hdr =>
      simp only [validate_recording, mkVerdict, structuralIssues]
      split_ifs <;> simp
  | readable hdr samples fileSize =>
      simp only [validate_recording, mkVerdict, structuralIssues, levelIssues, sizeIssues]
      split_ifs <;> simp

/-- C3 counterexample: a verdict containing WrongSampleRate does not block —
`_process_recording` proceeds to the transcription worker for either user
choice, contradicting the claim that WrongSampleRate requires re-recording. -/
theorem wrong_sample_rate_does_not_block :
    (validate_recording (Artifact.readable (WavHeader.mk 48000 8000 1) [16384] 1000)).issues
      = [IssueKind.wrong_sample_rate] ∧
    process_recording true
        (validate_recording (Artifact.readable (WavHeader.mk 48000 8000 1) [16384] 1000))
        UserChoice.ignore = ProcessOutcome.transcribe ∧
    process_recording true
        (validate_recording (Artifact.readable (WavHeader.mk 48000 8000 1) [16384] 1000))
        UserChoice.retry = ProcessOutcome.transcribe := by
  rw [validate_wrong_rate]
  refine ⟨rfl, by decide, by decide⟩

/-- C3 amended: after a successful capture the pipeline requires re-recording
exactly when TooQuiet is present and the user chooses Retry, or TooShort is
present without TooQuiet; every other verdict — including any containing
WrongSampleRate or NotMono without those two — proceeds to transcription. -/
theorem process_recording_block_conditions (v : Verdict) (c : UserChoice) :
    process_recording true v c = ProcessOutcome.rerecord ↔
      (v.valid = false ∧
        ((IssueKind.too_quiet ∈ v.issues ∧ c = UserChoice.retry) ∨
         (IssueKind.too_quiet ∉ v.issues ∧ IssueKind.too_short ∈ v.issues))) := by
  unfold process_recording
  by_cases hval : v.valid = false <;>
    by_cases hq : IssueKind.too_quiet ∈ v.issues <;>
      by_cases hs : IssueKind.too_short ∈ v.issues <;>
        cases c <;> simp_all

/-- C4: `calculate_wer` returns 0.0 when both normalized token lists are
empty, 1.0 when only the reference is empty, and otherwise the edit distance
divided by n rounded to 4 decimal places, with no cap at 1.0 — a value above
1.0 is exhibited. -/
theorem calculate_wer_cases (ref hyp : String) :
    (calculate_wer ref hyp =
      if wordsOf ref = [] then (if wordsOf hyp = [] then (0 : ℚ) else 1)
      else round4 ((edit_distance (wordsOf ref) (wordsOf hyp) : ℚ)
        / ((wordsOf ref).length : ℚ))) ∧
    1 < calculate_wer "a" "b c d e" := by
  constructor
  · exact calculate_wer_eq ref hyp
  · have h1 : wordsOf "a" = ["a"] := by decide
    have h2 : wordsOf "b c d e" = ["b", "c", "d", "e"] := by decide
    have h3 : edit_distance ["a"] ["b", "c", "d", "e"] = 4 := by decide
    rw [calculate_wer_eq, h1, h2, h3, if_neg (List.cons_ne_nil _ _)]
    norm_num [round4, roundHalfEven]

/-- C5: the edit distance computed by the DP loop inside `calculate_wer`
equals the value of the specified recurrence `dp[n][m]` with `dp[i][0] = i`,
`dp[0][j] = j`, diagonal reuse on equal tokens and otherwise
`1 + min` of the three neighbours. -/
theorem edit_distance_matches_dp_recurrence (ref hyp : List String) :
    edit_distance ref hyp = dpSpec ref hyp ref.length hyp.length :=
  edit_distance_eq_dpSpec ref hyp

/-- C6: `validate_recording` is total on the artifact model — every failure
mode, including decode/parse errors, is folded into the issue set (decode
failures yield Corrupted) — and the verdict is valid iff the set is empty. -/
theorem validate_recording_total_valid_iff (a : Artifact) :
    ((validate_recording a).valid = true ↔ (validate_recording a).issues = []) ∧
    (decodeFails a = true → IssueKind.corrupted ∈ (validate_recording a).issues) := by
  cases a with
  | missing => exact ⟨by simp [validate_recording], by simp [decodeFails]⟩
  | headerUnreadable =>
      exact ⟨by simp [validate_recording, mkVerdict], by simp [validate_recording, mkVerdict]⟩
  | samplesUnreadable hdr =>
      refine ⟨by simp [validate_recording, mkVerdict, List.isEmpty_iff], ?_⟩
      intro _
      simp [validate_recording, mkVerdict]
  | readable hdr samples fileSize =>
      exact ⟨by simp [validate_recording, mkVerdict, List.isEmpty_iff], by simp [decodeFails]⟩

/-- C6 witness: instantiation at a header decode failure. -/
theorem validate_recording_total_valid_iff_witness :
    decodeFails Artifact.headerUnreadable = true ∧
    ((validate_recording Artifact.headerUnreadable).valid = true ↔
      (validate_recording Artifact.headerUnreadable).issues = []) ∧
    IssueKind.corrupted ∈ (validate_recording Artifact.headerUnreadable).issues :=
  ⟨rfl, (validate_recording_total_valid_iff Artifact.headerUnreadable).1,
    (validate_recording_total_valid_iff Artifact.headerUnreadable).2 rfl⟩

/-- C7: the accuracy score is monotonically non-increasing in WER. -/
theorem accuracy_antitone_in_wer (w1 w2 : ℚ) (h : w1 ≤ w2) :
    (calculate_score w2).accuracy_percentage ≤ (calculate_score w1).accuracy_percentage := by
  rw [calculate_score_accuracy, calculate_score_accuracy]
  have h1 : pyTrunc ((1 - w2) * 100) ≤ pyTrunc ((1 - w1) * 100) :=
    pyTrunc_mono (by linarith)
  omega

/-- C7 witness: instantiation at WER 0 and WER 1. -/
theorem accuracy_antitone_in_wer_witness :
    (0 : ℚ) ≤ 1 ∧
    (calculate_score 1).accuracy_percentage ≤ (calculate_score 0).accuracy_percentage :=
  ⟨by norm_num, accuracy_antitone_in_wer 0 1 (by norm_num)⟩

/-- C8: scoring is deterministic — identical (transcription, target) inputs
produce identical results: same WER, accuracy, category and signal tag. -/
theorem score_recording_deterministic (t1 t2 s1 s2 : String)
    (h1 : t1 = t2) (h2 : s1 = s2) :
    score_recording t1 s1 = score_recording t2 s2 := by
  rw [h1, h2]

/-- C8 witness: instantiation at concrete equal inputs. -/
theorem score_recording_deterministic_witness :
    ("hello world" : String) = "hello world" ∧ ("hello word" : String) = "hello word" ∧
    score_recording "hello word" "hello world" = score_recording "hello word" "hello world" :=
  ⟨rfl, rfl,
    score_recording_deterministic "hello word" "hello word" "hello world" "hello world" rfl rfl⟩

/-- C9: when a recording session is already in progress, `start_recording` is
rejected: no session starts and the capture-service state (buffer, stop
signal, recording flag, level) is returned unchanged. -/
theorem start_recording_rejected_when_recording (s : AudioServiceState)
    (h : s.is_recording = true) : start_recording s = (s, false) := by
  simp [start_recording, h]

/-- C9 witness: instantiation at a concrete recording state. -/
theorem start_recording_rejected_witness :
    (AudioServiceState.mk true [[1]] false (1 / 2)).is_recording = true ∧
    start_recording (AudioServiceState.mk true [[1]] false (1 / 2))
      = (AudioServiceState.mk true [[1]] false (1 / 2), false) :=
  ⟨rfl, start_recording_rejected_when_recording (AudioServiceState.mk true [[1]] false (1 / 2)) rfl⟩

/-- C10: with a non-empty reference token list the computed edit distance is
at most `max n m`, hence the returned WER is at most
`round4(max n m / n)`, and in particular at most 1 when the hypothesis has no
more tokens than the reference. -/
theorem wer_bounded_by_max_ratio (ref hyp : String) (h : wordsOf ref ≠ []) :
    edit_distance (wordsOf ref) (wordsOf hyp)
        ≤ max (wordsOf ref).length (wordsOf hyp).length ∧
    calculate_wer ref hyp
        ≤ round4 ((max (wordsOf ref).length (wordsOf hyp).length : ℚ)
            / ((wordsOf ref).length : ℚ)) ∧
    ((wordsOf hyp).length ≤ (wordsOf ref).length → calculate_wer ref hyp ≤ 1) := by
  have hd : edit_distance (wordsOf ref) (wordsOf hyp)
      ≤ max (wordsOf ref).length (wordsOf hyp).length := by
    rw [edit_distance_eq_dpSpec]
    exact dpSpec_le_max (wordsOf ref) (wordsOf hyp) _ _
  have hn : 0 < (wordsOf ref).length := List.length_pos.mpr h
  have hc : (0 : ℚ) < ((wordsOf ref).length : ℚ) := by exact_mod_cast hn
  have hwer : calculate_wer ref hyp
      = round4 ((edit_distance (wordsOf ref) (wordsOf hyp) : ℚ)
          / ((wordsOf ref).length : ℚ)) := by
    rw [calculate_wer_eq]
    simp [h]
  refine ⟨hd, ?_, ?_⟩
  · rw [hwer]
    apply round4_mono
    exact (div_le_div_iff_of_pos_right hc).mpr (by exact_mod_cast hd)
  · intro hm
    have hmax : max (wordsOf ref).length (wordsOf hyp).length = (wordsOf ref).length :=
      max_eq_left hm
    rw [hwer]
    have h1 : ((edit_distance (wordsOf ref) (wordsOf hyp) : ℚ)
        / ((wordsOf ref).length : ℚ)) ≤ 1 := by
      rw [div_le_one hc]
      exact_mod_cast hd.trans (le_of_eq hmax)
    calc round4 ((edit_distance (wordsOf ref) (wordsOf hyp) : ℚ)
          / ((wordsOf ref).length : ℚ)) ≤ round4 1 := round4_mono h1
      _ = 1 := round4_one

/-- C10 witness: instantiation at a reference longer than the hypothesis. -/
theorem wer_bounded_by_max_ratio_witness :
    wordsOf "good morning" ≠ [] ∧
    (edit_distance (wordsOf "good morning") (wordsOf "good")
        ≤ max (wordsOf "good morning").length (wordsOf "good").length ∧
     calculate_wer "good morning" "good"
        ≤ round4 ((max (wordsOf "good morning").length (wordsOf "good").length : ℚ)
            / ((wordsOf "good morning").length : ℚ)) ∧
     ((wordsOf "good").length ≤ (wordsOf "good morning").length →
        calculate_wer "good morning" "good" ≤ 1)) :=
  ⟨by decide, wer_bounded_by_max_ratio "good morning" "good" (by decide)⟩

end VoiceNote
